import Mathlib

/-!
Verification development for the serverless TLQ (Transform-Load-Query) pipeline.

This file gives a shallow embedding of the two pieces of core logic of the
repository and proves/refutes the specification claims about them:

* `src/python/src/Transform.py`, function `transform`: per-row field
  derivation (order processing time, order-priority normalization, gross
  margin) and first-seen-wins deduplication on the Order ID column.
* `src/python/src/Query.py`, function `lambda_handler`: dynamic construction
  of the SQL filter / aggregation queries from the request's `Filters`
  mapping and `Group By` list, execution against the `orders` table
  (schema from `src/python/src/Load.py`), and assembly of the response.

Modelling conventions:
* CSV cell values are strings; the numeric cells that the Python code
  coerces with `float(...)` are modelled as already-parsed rationals
  (float arithmetic is modelled over `ℚ`; the claims under study do not
  depend on rounding).
* `datetime.strptime(s, m/d/Y)` and date subtraction `.days` are embedded
  via a proleptic-Gregorian ordinal (`toordinal`), exactly Python's
  `date.toordinal`; subtracting two midnight datetimes yields a whole
  number of days, which is the ordinal difference.
* The SQLite engine the handler drives is embedded by a small evaluator
  for exactly the query shapes the handler can emit: a tokenizer
  following SQL single-quote string syntax (with doubled-quote escape),
  a recursive-descent parser with the precedence `=` over `AND` over
  `OR`, and an evaluator over the 16 columns of the `orders` table.
  Boolean coercion of a bare term (never produced by the handler's
  template) is left undefined (query error).
-/

namespace TLQ

/-! ### Dates: embedding of `datetime.strptime(_, '%m/%d/%Y')` and
    whole-day subtraction (Transform.py lines 95-97) -/

def isLeap (y : Nat) : Bool := (y % 4 == 0 && y % 100 != 0) || y % 400 == 0

def daysInMonth (y m : Nat) : Nat :=
  if m = 2 then (if isLeap y then 29 else 28)
  else if m = 4 ∨ m = 6 ∨ m = 9 ∨ m = 11 then 30
  else 31

structure Date where
  year : Nat
  month : Nat
  day : Nat
deriving Repr, DecidableEq

/-- Days of year `y` that lie strictly before month `m`. -/
def daysBeforeMonth (y m : Nat) : Nat :=
  (List.range (m - 1)).foldl (fun a i => a + daysInMonth y (i + 1)) 0

/-- Python's `date.toordinal`: proleptic-Gregorian day number, 0001-01-01 ↦ 1. -/
def toordinal (d : Date) : Nat :=
  365 * (d.year - 1) + (d.year - 1) / 4 - (d.year - 1) / 100 + (d.year - 1) / 400
    + daysBeforeMonth d.year d.month + d.day

/-- `(ship_date - order_date).days` for two midnight datetimes. -/
def dateDiffDays (od sd : Date) : Int := (toordinal sd : Int) - (toordinal od : Int)

/-- Split a character list at every occurrence of `sep` (the `acc` argument
    holds the current fragment, reversed). -/
def splitOn (sep : Char) : List Char → List Char → List (List Char)
  | [], acc => [acc.reverse]
  | c :: cs, acc =>
    if c = sep then acc.reverse :: splitOn sep cs []
    else splitOn sep cs (c :: acc)

def digitsToNat (s : List Char) : Option Nat :=
  if s ≠ [] ∧ s.all Char.isDigit = true then
    some (s.foldl (fun a c => a * 10 + (c.toNat - 48)) 0)
  else none

/-- `datetime.strptime(s, '%m/%d/%Y')`, restricted to the plain
    `month/day/year` digit strings the format accepts: three `/`-separated
    digit groups, month 1-12, day within the month, year 1-9999.
    `none` models the `ValueError` strptime raises on malformed input. -/
def parseDate (s : String) : Option Date :=
  match splitOn '/' s.data [] with
  | [ms, ds, ys] =>
    match digitsToNat ms, digitsToNat ds, digitsToNat ys with
    | some m, some d, some y =>
      if 1 ≤ m ∧ m ≤ 12 ∧ 1 ≤ d ∧ d ≤ daysInMonth y m ∧ 1 ≤ y ∧ y ≤ 9999 then
        some ⟨y, m, d⟩
      else none
    | _, _, _ => none
  | _ => none

/-! ### Transform.py: rows and the `transform` function (lines 72-109) -/

/-- One raw CSV row as `csv.DictReader` hands it to `transform`.  The columns
    `transform` reads are explicit; `Total Revenue` / `Total Profit` are the
    rational values of the cells (the source applies `float(...)`); every
    remaining column is carried opaquely in `other`. -/
structure RawRow where
  orderID : String
  orderDate : String
  shipDate : String
  orderPriority : String
  totalRevenue : ℚ
  totalProfit : ℚ
  other : List (String × String)
deriving Repr, DecidableEq

/-- A transformed row: the raw columns (with `Order Priority` overwritten by
    its normalized value) plus the two derived columns. -/
structure TransRow where
  orderID : String
  orderDate : String
  shipDate : String
  orderPriority : String
  totalRevenue : ℚ
  totalProfit : ℚ
  other : List (String × String)
  orderProcessingTime : Int
  grossMargin : ℚ
deriving Repr, DecidableEq

/-- Transform.py line 100: `order_priority_mapping`. -/
def priorityMapping : List (String × String) :=
  [("H", "High"), ("C", "Critical"), ("L", "Low"), ("M", "Medium")]

/-- Transform.py line 101: `order_priority_mapping.get(code, 'Unknown')`. -/
def mapPriority (code : String) : String :=
  (priorityMapping.lookup code).getD "Unknown"

/-- The per-row body of the loop in `transform` (lines 94-109): parse the two
    dates (a failure aborts the batch, hence `Option`), derive the processing
    time, normalize the priority, derive the gross margin
    (`total_profit / total_revenue if total_revenue else 0`). -/
def processRow (r : RawRow) : Option TransRow := do
  let od ← parseDate r.orderDate
  let sd ← parseDate r.shipDate
  some { orderID := r.orderID
         orderDate := r.orderDate
         shipDate := r.shipDate
         orderPriority := mapPriority r.orderPriority
         totalRevenue := r.totalRevenue
         totalProfit := r.totalProfit
         other := r.other
         orderProcessingTime := dateDiffDays od sd
         grossMargin := if r.totalRevenue ≠ 0 then r.totalProfit / r.totalRevenue else 0 }

/-- The loop of `transform` (lines 86-109): `seen` is the `seen_order_ids`
    set; a row whose Order ID was seen is skipped before anything else; a
    date-parse failure aborts the whole call (the Python exception unwinds
    past the partially built list). -/
def transformGo : List RawRow → List String → Option (List TransRow)
  | [], _ => some []
  | r :: rs, seen =>
    if r.orderID ∈ seen then transformGo rs seen
    else
      match processRow r with
      | none => none
      | some t => (transformGo rs (r.orderID :: seen)).map (t :: ·)

/-- `transform` from Transform.py, abstracted over the already-read CSV rows
    (file I/O is outside the core). -/
def transform (rows : List RawRow) : Option (List TransRow) :=
  transformGo rows []

/-- Pure first-seen-wins deduplication on Order ID, for the characterization
    of `transform` below. -/
def dedupRows : List RawRow → List String → List RawRow
  | [], _ => []
  | r :: rs, seen =>
    if r.orderID ∈ seen then dedupRows rs seen
    else r :: dedupRows rs (r.orderID :: seen)

/-- Row-wise derivation of a whole list, aborting on the first failure. -/
def deriveAll : List RawRow → Option (List TransRow)
  | [] => some []
  | r :: rs =>
    match processRow r, deriveAll rs with
    | some t, some ts => some (t :: ts)
    | _, _ => none

/-! ### Characterization lemmas for `transform` -/

lemma transformGo_eq_deriveAll (l : List RawRow) :
    ∀ seen, transformGo l seen = deriveAll (dedupRows l seen) := by
  induction l with
  | nil => intro seen; rfl
  | cons r rs ih =>
    intro seen
    by_cases hm : r.orderID ∈ seen
    · simp [transformGo, dedupRows, hm, ih]
    · simp only [transformGo, dedupRows, if_neg hm]
      cases hp : processRow r with
      | none => simp [deriveAll, hp]
      | some t =>
        rw [ih]
        cases hd : deriveAll (dedupRows rs (r.orderID :: seen)) with
        | none => simp [deriveAll, hp, hd]
        | some ts => simp [deriveAll, hp, hd]

lemma transform_eq_deriveAll (l : List RawRow) :
    transform l = deriveAll (dedupRows l []) :=
  transformGo_eq_deriveAll l []

lemma processRow_spec {r : RawRow} {t : TransRow} (h : processRow r = some t) :
    t.orderID = r.orderID ∧ t.orderDate = r.orderDate ∧ t.shipDate = r.shipDate ∧
    t.orderPriority = mapPriority r.orderPriority ∧
    t.totalRevenue = r.totalRevenue ∧ t.totalProfit = r.totalProfit ∧ t.other = r.other ∧
    t.grossMargin = (if r.totalRevenue ≠ 0 then r.totalProfit / r.totalRevenue else 0) ∧
    ∃ od sd, parseDate r.orderDate = some od ∧ parseDate r.shipDate = some sd ∧
      t.orderProcessingTime = dateDiffDays od sd := by
  unfold processRow at h
  cases hod : parseDate r.orderDate with
  | none => rw [hod] at h; simp at h
  | some od =>
    cases hsd : parseDate r.shipDate with
    | none => rw [hod, hsd] at h; simp at h
    | some sd =>
      rw [hod, hsd] at h
      simp only [Option.some.injEq, bind, Option.bind] at h
      subst h
      exact ⟨rfl, rfl, rfl, rfl, rfl, rfl, rfl, rfl, od, sd, rfl, rfl, rfl⟩

lemma deriveAll_mem {l : List RawRow} {out : List TransRow}
    (h : deriveAll l = some out) :
    ∀ t ∈ out, ∃ r ∈ l, processRow r = some t := by
  induction l generalizing out with
  | nil =>
    simp only [deriveAll, Option.some.injEq] at h
    subst h; simp
  | cons r rs ih =>
    simp only [deriveAll] at h
    cases hp : processRow r with
    | none => rw [hp] at h; simp at h
    | some t0 =>
      rw [hp] at h
      cases hd : deriveAll rs with
      | none => rw [hd] at h; simp at h
      | some ts =>
        rw [hd] at h
        simp only [Option.some.injEq] at h
        subst h
        intro t ht
        rcases List.mem_cons.mp ht with h1 | h2
        · exact ⟨r, List.mem_cons_self r rs, h1 ▸ hp⟩
        · rcases ih hd t h2 with ⟨r', hr', hp'⟩
          exact ⟨r', List.mem_cons_of_mem _ hr', hp'⟩

lemma deriveAll_forall {l : List RawRow} {out : List TransRow}
    (h : deriveAll l = some out) :
    ∀ r ∈ l, ∃ t ∈ out, processRow r = some t := by
  induction l generalizing out with
  | nil => simp
  | cons r rs ih =>
    simp only [deriveAll] at h
    cases hp : processRow r with
    | none => rw [hp] at h; simp at h
    | some t0 =>
      rw [hp] at h
      cases hd : deriveAll rs with
      | none => rw [hd] at h; simp at h
      | some ts =>
        rw [hd] at h
        simp only [Option.some.injEq] at h
        subst h
        intro r' hr'
        rcases List.mem_cons.mp hr' with h1 | h2
        · exact ⟨t0, List.mem_cons_self t0 ts, h1 ▸ hp⟩
        · rcases ih hd r' h2 with ⟨t, ht, hp'⟩
          exact ⟨t, List.mem_cons_of_mem _ ht, hp'⟩

lemma deriveAll_map_orderID {l : List RawRow} {out : List TransRow}
    (h : deriveAll l = some out) :
    out.map (·.orderID) = l.map (·.orderID) := by
  induction l generalizing out with
  | nil =>
    simp only [deriveAll, Option.some.injEq] at h
    subst h; rfl
  | cons r rs ih =>
    simp only [deriveAll] at h
    cases hp : processRow r with
    | none => rw [hp] at h; simp at h
    | some t0 =>
      rw [hp] at h
      cases hd : deriveAll rs with
      | none => rw [hd] at h; simp at h
      | some ts =>
        rw [hd] at h
        simp only [Option.some.injEq] at h
        subst h
        simp [ih hd, (processRow_spec hp).1]

lemma dedupRows_nodup : ∀ (l : List RawRow) (seen : List String),
    ((dedupRows l seen).map (·.orderID)).Nodup ∧
    ∀ r ∈ dedupRows l seen, r.orderID ∉ seen := by
  intro l
  induction l with
  | nil => intro seen; simp [dedupRows]
  | cons a rs ih =>
    intro seen
    by_cases hm : a.orderID ∈ seen
    · simp only [dedupRows, if_pos hm]
      exact ih seen
    · simp only [dedupRows, if_neg hm, List.map_cons, List.nodup_cons]
      refine ⟨⟨?_, (ih _).1⟩, ?_⟩
      · intro hmem
        rcases List.mem_map.mp hmem with ⟨r, hr, hid⟩
        exact (ih _).2 r hr (by rw [hid]; exact List.mem_cons_self _ _)
      · intro r hr
        rcases List.mem_cons.mp hr with h1 | h2
        · rw [h1]; exact hm
        · intro hs; exact (ih _).2 r h2 (List.mem_cons_of_mem _ hs)

lemma dedupRows_find : ∀ (l : List RawRow) (seen : List String) (r0 : RawRow),
    r0 ∈ dedupRows l seen →
    l.find? (fun x => x.orderID == r0.orderID) = some r0 := by
  intro l
  induction l with
  | nil => intro seen r0 h; simp [dedupRows] at h
  | cons a rs ih =>
    intro seen r0 h
    by_cases hm : a.orderID ∈ seen
    · simp only [dedupRows, if_pos hm] at h
      have hne : a.orderID ≠ r0.orderID := by
        intro he
        exact (dedupRows_nodup rs seen).2 r0 h (by rw [← he]; exact hm)
      rw [List.find?_cons_of_neg]
      · exact ih seen r0 h
      · simp [hne]
    · simp only [dedupRows, if_neg hm] at h
      rcases List.mem_cons.mp h with h1 | h2
      · rw [h1]
        rw [List.find?_cons_of_pos]
        simp
      · have hne : a.orderID ≠ r0.orderID := by
          intro he
          exact (dedupRows_nodup rs (a.orderID :: seen)).2 r0 h2
            (by rw [← he]; exact List.mem_cons_self _ _)
        rw [List.find?_cons_of_neg]
        · exact ih _ r0 h2
        · simp [hne]

lemma dedupRows_covers : ∀ (l : List RawRow) (seen : List String) (r : RawRow),
    r ∈ l → r.orderID ∈ seen ∨ ∃ rd ∈ dedupRows l seen, rd.orderID = r.orderID := by
  intro l
  induction l with
  | nil => intro seen r h; simp at h
  | cons a rs ih =>
    intro seen r h
    rcases List.mem_cons.mp h with h1 | h2
    · subst h1
      by_cases hm : r.orderID ∈ seen
      · exact Or.inl hm
      · right
        exact ⟨r, by simp [dedupRows, if_neg hm], rfl⟩
    · by_cases hm : a.orderID ∈ seen
      · rcases ih seen r h2 with hs | ⟨rd, hrd, hid⟩
        · exact Or.inl hs
        · exact Or.inr ⟨rd, by simp only [dedupRows, if_pos hm]; exact hrd, hid⟩
      · rcases ih (a.orderID :: seen) r h2 with hs | ⟨rd, hrd, hid⟩
        · rcases List.mem_cons.mp hs with he | hs2
          · right
            exact ⟨a, by simp [dedupRows, if_neg hm], he.symm⟩
          · exact Or.inl hs2
        · right
          refine ⟨rd, ?_, hid⟩
          simp only [dedupRows, if_neg hm]
          exact List.mem_cons_of_mem _ hrd

lemma dedupRows_all_seen : ∀ (l : List RawRow) (seen : List String),
    (∀ r ∈ l, r.orderID ∈ seen) → dedupRows l seen = [] := by
  intro l
  induction l with
  | nil => intro seen _; rfl
  | cons a rs ih =>
    intro seen h
    have hm : a.orderID ∈ seen := h a (List.mem_cons_self _ _)
    simp only [dedupRows, if_pos hm]
    exact ih seen (fun r hr => h r (List.mem_cons_of_mem _ hr))

lemma dedupRows_append_absorb : ∀ (l1 l2 : List RawRow) (seen : List String),
    (∀ r ∈ l2, r.orderID ∈ seen ∨ r.orderID ∈ l1.map (·.orderID)) →
    dedupRows (l1 ++ l2) seen = dedupRows l1 seen := by
  intro l1
  induction l1 with
  | nil =>
    intro l2 seen h
    simp only [List.nil_append, dedupRows]
    exact dedupRows_all_seen l2 seen (fun r hr => by
      rcases h r hr with hs | hmem
      · exact hs
      · simp at hmem)
  | cons a rs ih =>
    intro l2 seen h
    by_cases hm : a.orderID ∈ seen
    · simp only [List.cons_append, dedupRows, if_pos hm]
      apply ih
      intro r hr
      rcases h r hr with hs | hmem
      · exact Or.inl hs
      · simp only [List.map_cons, List.mem_cons] at hmem
        rcases hmem with he | hm2
        · exact Or.inl (by rw [he]; exact hm)
        · exact Or.inr hm2
    · simp only [List.cons_append, dedupRows, if_neg hm]
      congr 1
      apply ih
      intro r hr
      rcases h r hr with hs | hmem
      · exact Or.inl (List.mem_cons_of_mem _ hs)
      · simp only [List.map_cons, List.mem_cons] at hmem
        rcases hmem with he | hm2
        · exact Or.inl (by rw [he]; exact List.mem_cons_self _ _)
        · exact Or.inr hm2

lemma mapPriority_eq (c : String) :
    mapPriority c =
      if c = "H" then "High" else if c = "C" then "Critical"
      else if c = "L" then "Low" else if c = "M" then "Medium" else "Unknown" := by
  unfold mapPriority priorityMapping
  by_cases h1 : c = "H"
  · subst h1; rfl
  by_cases h2 : c = "C"
  · subst h2; rfl
  by_cases h3 : c = "L"
  · subst h3; rfl
  by_cases h4 : c = "M"
  · subst h4; rfl
  simp only [List.lookup]
  rw [show (c == "H") = false by simp [h1], show (c == "C") = false by simp [h2],
    show (c == "L") = false by simp [h3], show (c == "M") = false by simp [h4]]
  simp [h1, h2, h3, h4]

lemma dedupRows_subset : ∀ (l : List RawRow) (seen : List String),
    ∀ r ∈ dedupRows l seen, r ∈ l := by
  intro l
  induction l with
  | nil => intro seen r hr; simp [dedupRows] at hr
  | cons a rs ih =>
    intro seen r hr
    by_cases hm : a.orderID ∈ seen
    · simp only [dedupRows, if_pos hm] at hr
      exact List.mem_cons_of_mem _ (ih seen r hr)
    · simp only [dedupRows, if_neg hm] at hr
      rcases List.mem_cons.mp hr with h1 | h2
      · rw [h1]; exact List.mem_cons_self a rs
      · exact List.mem_cons_of_mem _ (ih _ r h2)

lemma transform_mem_processRow {l : List RawRow} {out : List TransRow}
    (h : transform l = some out) :
    ∀ t ∈ out, ∃ r ∈ l, processRow r = some t := by
  rw [transform_eq_deriveAll] at h
  intro t ht
  rcases deriveAll_mem h t ht with ⟨rd, hrd, hp⟩
  exact ⟨rd, dedupRows_subset l [] rd hrd, hp⟩

/-! ### Sample rows used by the concrete witnesses below -/

/-- A well-formed raw row (Order ID 100, priority code `H`, revenue 10,
    profit 5, order placed 1/1/2020, shipped 1/5/2020). -/
def sampleRow1 : RawRow :=
  { orderID := "100", orderDate := "1/1/2020", shipDate := "1/5/2020",
    orderPriority := "H", totalRevenue := 10, totalProfit := 5,
    other := [("Units Sold", "3")] }

/-- A raw row with zero revenue, an unrecognized priority code, and a ship
    date before its order date. -/
def sampleRow2 : RawRow :=
  { orderID := "200", orderDate := "2/1/2020", shipDate := "1/15/2020",
    orderPriority := "X", totalRevenue := 0, totalProfit := 7,
    other := [("Units Sold", "2")] }

/-- A duplicate of Order ID 100 with different field values. -/
def sampleDup : RawRow :=
  { orderID := "100", orderDate := "1/1/2020", shipDate := "1/9/2020",
    orderPriority := "L", totalRevenue := 20, totalProfit := 1,
    other := [("Units Sold", "7")] }

def sampleInput : List RawRow := [sampleRow1, sampleRow2, sampleDup]

def sampleT1 : TransRow :=
  { orderID := "100", orderDate := "1/1/2020", shipDate := "1/5/2020",
    orderPriority := "High", totalRevenue := 10, totalProfit := 5,
    other := [("Units Sold", "3")], orderProcessingTime := 4,
    grossMargin := (5 : ℚ) / 10 }

def sampleT2 : TransRow :=
  { orderID := "200", orderDate := "2/1/2020", shipDate := "1/15/2020",
    orderPriority := "Unknown", totalRevenue := 0, totalProfit := 7,
    other := [("Units Sold", "2")], orderProcessingTime := -17,
    grossMargin := 0 }

def sampleOut : List TransRow := [sampleT1, sampleT2]

lemma transform_sampleInput : transform sampleInput = some sampleOut := rfl

/-! ### Claims about the Transformer (Transform.py) -/

/-- C4: within one `transform` call the emitted OrderID values are pairwise
distinct; every emitted row is the derivation of the first input row carrying
its OrderID (`List.find?` returns the first match), and every OrderID
occurring in the input is represented in the output, so a later row with a
repeated OrderID contributes nothing to the output. -/
theorem transform_first_seen_wins {l : List RawRow} {out : List TransRow}
    (h : transform l = some out) :
    (out.map (·.orderID)).Nodup ∧
    (∀ t ∈ out, ∃ r0, l.find? (fun x => x.orderID == t.orderID) = some r0 ∧
      processRow r0 = some t) ∧
    (∀ r ∈ l, ∃ t ∈ out, t.orderID = r.orderID) := by
  rw [transform_eq_deriveAll] at h
  refine ⟨?_, ?_, ?_⟩
  · rw [deriveAll_map_orderID h]
    exact (dedupRows_nodup l []).1
  · intro t ht
    rcases deriveAll_mem h t ht with ⟨rd, hrd, hp⟩
    refine ⟨rd, ?_, hp⟩
    rw [(processRow_spec hp).1]
    exact dedupRows_find l [] rd hrd
  · intro r hr
    rcases dedupRows_covers l [] r hr with hs | ⟨rd, hrd, hid⟩
    · simp at hs
    · rcases deriveAll_forall h rd hrd with ⟨t, ht, hp⟩
      exact ⟨t, ht, by rw [(processRow_spec hp).1, hid]⟩

/-- Witness for C4 at `sampleInput` (its rows 1 and 3 share OrderID 100 with
different field values; the output keeps the first row's derivation). -/
theorem transform_first_seen_wins_witness :
    (sampleOut.map (·.orderID)).Nodup ∧
    (∀ t ∈ sampleOut, ∃ r0,
      sampleInput.find? (fun x => x.orderID == t.orderID) = some r0 ∧
      processRow r0 = some t) ∧
    (∀ r ∈ sampleInput, ∃ t ∈ sampleOut, t.orderID = r.orderID) :=
  transform_first_seen_wins (show transform sampleInput = some sampleOut from rfl)

/-- C5: dedup idempotence — transforming a row list concatenated with itself
yields exactly the output of transforming it once (the second copy is
entirely dropped). -/
theorem transform_concat_self (l : List RawRow) :
    transform (l ++ l) = transform l := by
  simp only [transform_eq_deriveAll]
  congr 1
  exact dedupRows_append_absorb l l []
    (fun r hr => Or.inr (List.mem_map.mpr ⟨r, hr, rfl⟩))

/-- C6: every emitted record's GrossMargin equals TotalProfit / TotalRevenue
when TotalRevenue is nonzero and is exactly 0 when TotalRevenue is 0; the
derivation is a total function (the zero-revenue branch never divides). -/
theorem transform_grossMargin_safe {l : List RawRow} {out : List TransRow}
    (h : transform l = some out) :
    ∀ t ∈ out,
      (t.totalRevenue = 0 → t.grossMargin = 0) ∧
      (t.totalRevenue ≠ 0 → t.grossMargin = t.totalProfit / t.totalRevenue) := by
  intro t ht
  rcases transform_mem_processRow h t ht with ⟨r, _, hp⟩
  obtain ⟨-, -, -, -, hrev, hprof, -, hgm, -⟩ := processRow_spec hp
  constructor
  · intro h0
    rw [hrev] at h0
    rw [hgm, if_neg (by simp [h0])]
  · intro h0
    rw [hrev] at h0
    rw [hgm, if_pos h0, hprof, hrev]

/-- Witness for C6 at `sampleInput`: the zero-revenue row gets margin exactly
0, the revenue-10/profit-5 row gets margin 5/10. -/
theorem transform_grossMargin_safe_witness :
    (∀ t ∈ sampleOut,
      (t.totalRevenue = 0 → t.grossMargin = 0) ∧
      (t.totalRevenue ≠ 0 → t.grossMargin = t.totalProfit / t.totalRevenue)) ∧
    sampleT2.totalRevenue = 0 ∧ sampleT2.grossMargin = 0 ∧
    sampleT1.grossMargin = sampleT1.totalProfit / sampleT1.totalRevenue :=
  ⟨transform_grossMargin_safe (show transform sampleInput = some sampleOut from rfl),
   rfl, rfl, rfl⟩

/-- C7: every emitted record's OrderProcessingTime is the whole-day ordinal
difference ShipDate − OrderDate of its two dates parsed under the
month/day/year format — a deterministic function of the two dates, negative
when the ship date precedes the order date (no correction applied). -/
theorem transform_processing_time {l : List RawRow} {out : List TransRow}
    (h : transform l = some out) :
    ∀ t ∈ out, ∃ od sd,
      parseDate t.orderDate = some od ∧ parseDate t.shipDate = some sd ∧
      t.orderProcessingTime = dateDiffDays od sd := by
  intro t ht
  rcases transform_mem_processRow h t ht with ⟨r, _, hp⟩
  obtain ⟨-, hod, hsd, -, -, -, -, -, od, sd, h1, h2, h3⟩ := processRow_spec hp
  exact ⟨od, sd, by rw [hod]; exact h1, by rw [hsd]; exact h2, h3⟩

/-- Witness for C7 at `sampleInput`: OrderDate 1/1/2020 with ShipDate
1/5/2020 gives 4; the inconsistent-dates row gives the negative value -17. -/
theorem transform_processing_time_witness :
    (∀ t ∈ sampleOut, ∃ od sd,
      parseDate t.orderDate = some od ∧ parseDate t.shipDate = some sd ∧
      t.orderProcessingTime = dateDiffDays od sd) ∧
    sampleT1.orderDate = "1/1/2020" ∧ sampleT1.shipDate = "1/5/2020" ∧
    sampleT1.orderProcessingTime = 4 ∧
    sampleT2.orderProcessingTime = -17 :=
  ⟨transform_processing_time (show transform sampleInput = some sampleOut from rfl),
   rfl, rfl, rfl, rfl⟩

/-- C9: the Order Priority code of every processed row is normalized by the
fixed table H→High, C→Critical, L→Low, M→Medium; every other code maps to
Unknown; the normalization is total, its value always one of the five
priority names. -/
theorem transform_priority_normalized {l : List RawRow} {out : List TransRow}
    (h : transform l = some out) :
    (∀ t ∈ out, ∃ r ∈ l,
      t.orderPriority = mapPriority r.orderPriority ∧
      (r.orderPriority = "H" → t.orderPriority = "High") ∧
      (r.orderPriority = "C" → t.orderPriority = "Critical") ∧
      (r.orderPriority = "L" → t.orderPriority = "Low") ∧
      (r.orderPriority = "M" → t.orderPriority = "Medium") ∧
      (r.orderPriority ∉ (["H", "C", "L", "M"] : List String) →
        t.orderPriority = "Unknown")) ∧
    (∀ c : String,
      mapPriority c ∈ (["High", "Critical", "Low", "Medium", "Unknown"] : List String)) := by
  constructor
  · intro t ht
    rcases transform_mem_processRow h t ht with ⟨r, hrl, hp⟩
    have hpr := (processRow_spec hp).2.2.2.1
    refine ⟨r, hrl, hpr, ?_, ?_, ?_, ?_, ?_⟩
    · intro hc; rw [hpr, hc]; rfl
    · intro hc; rw [hpr, hc]; rfl
    · intro hc; rw [hpr, hc]; rfl
    · intro hc; rw [hpr, hc]; rfl
    · intro hc
      simp only [List.mem_cons, List.not_mem_nil, or_false, not_or] at hc
      obtain ⟨n1, n2, n3, n4⟩ := hc
      rw [hpr, mapPriority_eq]
      simp [n1, n2, n3, n4]
  · intro c
    rw [mapPriority_eq]
    split_ifs <;> simp

/-- Witness for C9 at `sampleInput`: code H maps to High, the unrecognized
code X maps to Unknown. -/
theorem transform_priority_normalized_witness :
    ((∀ t ∈ sampleOut, ∃ r ∈ sampleInput,
      t.orderPriority = mapPriority r.orderPriority ∧
      (r.orderPriority = "H" → t.orderPriority = "High") ∧
      (r.orderPriority = "C" → t.orderPriority = "Critical") ∧
      (r.orderPriority = "L" → t.orderPriority = "Low") ∧
      (r.orderPriority = "M" → t.orderPriority = "Medium") ∧
      (r.orderPriority ∉ (["H", "C", "L", "M"] : List String) →
        t.orderPriority = "Unknown")) ∧
    (∀ c : String,
      mapPriority c ∈ (["High", "Critical", "Low", "Medium", "Unknown"] : List String))) ∧
    sampleT1.orderPriority = "High" ∧ sampleT2.orderPriority = "Unknown" :=
  ⟨transform_priority_normalized (show transform sampleInput = some sampleOut from rfl),
   rfl, rfl⟩

/-! ### Query.py: the stored table and the dynamically built SQL query

One stored row of the `orders` table, with the column types declared in
Load.py (TEXT / INTEGER / REAL; REAL is modelled over `ℚ`).  The
auto-increment surrogate key is not modelled (no query built by the handler
refers to it). -/

structure OrderRec where
  region : String
  country : String
  itemType : String
  salesChannel : String
  orderPriority : String
  orderDate : String
  orderID : Int
  shipDate : String
  unitsSold : Int
  unitPrice : ℚ
  unitCost : ℚ
  totalRevenue : ℚ
  totalCost : ℚ
  totalProfit : ℚ
  orderProcessingTime : Int
  grossMargin : ℚ
deriving Repr, DecidableEq

/-- The single-quote character (ASCII 39), used by the handler's f-strings
    when it splices a filter value into the query text. -/
def squoteChar : Char := Char.ofNat 39

def squote : String := String.singleton squoteChar

/-- Query.py lines 63-72: for one of the five recognized `Filters` keys,
    the contributed WHERE conjunct.  `filters.get(key)` is modelled by
    association-list lookup; Python's truthiness test skips both a missing
    key and an empty-string value; otherwise the value is interpolated
    verbatim between single quotes. -/
def filterClause (fs : List (String × String)) (key col : String) : List String :=
  match fs.lookup key with
  | some v => if v = "" then [] else [col ++ " = " ++ squote ++ v ++ squote]
  | none => []

/-- Query.py lines 62-72: the `query_filters` list, in source order. -/
def buildQueryFilters (fs : List (String × String)) : List String :=
  filterClause fs "Region" "Region" ++
  filterClause fs "Item Type" "ItemType" ++
  filterClause fs "Sales Channel" "SalesChannel" ++
  filterClause fs "Order Priority" "OrderPriority" ++
  filterClause fs "Country" "Country"

/-- `str.join` over a separator. -/
def joinSep (sep : String) : List String → String
  | [] => ""
  | [s] => s
  | s :: rest => s ++ sep ++ joinSep sep rest

/-- Query.py lines 75-78: the WHERE clause appended to both queries
    (empty when no filter contributed). -/
def whereClause (fs : List (String × String)) : String :=
  match buildQueryFilters fs with
  | [] => ""
  | cs => " WHERE " ++ joinSep " AND " cs

/-- Query.py line 59 with line 78: the full text of the filter query. -/
def filterQueryText (fs : List (String × String)) : String :=
  "SELECT * FROM orders" ++ whereClause fs

/-! ### A small SQLite evaluator for the WHERE conditions the handler emits

The handler hands its assembled text to `sqlite3`; the fragment reachable
from the handler's templates (plus whatever an interpolated value turns it
into) is equality comparisons over identifiers and single-quoted string
literals, combined with `AND` / `OR`.  Tokenizer and parser below follow
SQL syntax on that fragment: a quote inside a string literal is written as
a doubled quote, keywords are case-insensitive, `=` binds tighter than
`AND`, which binds tighter than `OR`.  Evaluation of a bare term in boolean
position is left undefined (none of the handler's templates produce one). -/

inductive Tok where
  | ident : String → Tok
  | str : String → Tok
  | eqT : Tok
  | andT : Tok
  | orT : Tok
deriving Repr, DecidableEq

def isIdentChar (c : Char) : Bool := c.isAlpha || c.isDigit || c = '_'

def upChar (c : Char) : Char :=
  if c.isLower then Char.ofNat (c.toNat - 32) else c

def upStr (s : String) : String := String.mk (s.data.map upChar)

/-- Consume a single-quoted string literal body (opening quote already
    read); a doubled quote is an escaped quote, an unterminated literal is
    a syntax error. -/
def lexStr : Nat → List Char → String → Option (String × List Char)
  | 0, _, _ => none
  | _ + 1, [], _ => none
  | n + 1, c :: cs, acc =>
    if c = squoteChar then
      match cs with
      | c2 :: cs2 =>
        if c2 = squoteChar then lexStr n cs2 (acc.push squoteChar)
        else some (acc, cs)
      | [] => some (acc, [])
    else lexStr n cs (acc.push c)

def lexIdent : Nat → List Char → String → String × List Char
  | 0, cs, acc => (acc, cs)
  | _ + 1, [], acc => (acc, [])
  | n + 1, c :: cs, acc =>
    if isIdentChar c then lexIdent n cs (acc.push c) else (acc, c :: cs)

def keywordTok (w : String) : Tok :=
  if upStr w = "AND" then Tok.andT
  else if upStr w = "OR" then Tok.orT
  else Tok.ident w

def tokenizeGo : Nat → List Char → Option (List Tok)
  | 0, _ => none
  | _ + 1, [] => some []
  | n + 1, c :: cs =>
    if c = ' ' then tokenizeGo n cs
    else if c = '=' then (tokenizeGo n cs).map (Tok.eqT :: ·)
    else if c = squoteChar then
      match lexStr (cs.length + 1) cs "" with
      | none => none
      | some (s, rest) => (tokenizeGo n rest).map (Tok.str s :: ·)
    else if isIdentChar c then
      match lexIdent (cs.length + 1) cs (String.singleton c) with
      | (w, rest) => (tokenizeGo n rest).map (keywordTok w :: ·)
    else none

def tokenize (s : String) : Option (List Tok) :=
  tokenizeGo (s.data.length + 1) s.data

inductive STerm where
  | col : String → STerm
  | lit : String → STerm
deriving Repr, DecidableEq

inductive SExpr where
  | atom : STerm → SExpr
  | cmp : STerm → STerm → SExpr
  | sand : SExpr → SExpr → SExpr
  | sor : SExpr → SExpr → SExpr
deriving Repr, DecidableEq

def parsePrim : List Tok → Option (STerm × List Tok)
  | Tok.ident c :: ts => some (STerm.col c, ts)
  | Tok.str s :: ts => some (STerm.lit s, ts)
  | _ => none

def parseCmp (ts : List Tok) : Option (SExpr × List Tok) :=
  match parsePrim ts with
  | none => none
  | some (t1, rest) =>
    match rest with
    | Tok.eqT :: rest2 =>
      match parsePrim rest2 with
      | none => none
      | some (t2, rest3) => some (SExpr.cmp t1 t2, rest3)
    | _ => some (SExpr.atom t1, rest)

def parseAndGo : Nat → SExpr → List Tok → Option (SExpr × List Tok)
  | 0, _, _ => none
  | n + 1, acc, Tok.andT :: ts =>
    match parseCmp ts with
    | none => none
    | some (e, rest) => parseAndGo n (SExpr.sand acc e) rest
  | _ + 1, acc, ts => some (acc, ts)

def parseAnd (fuel : Nat) (ts : List Tok) : Option (SExpr × List Tok) :=
  match parseCmp ts with
  | none => none
  | some (e, rest) => parseAndGo fuel e rest

def parseOrGo : Nat → SExpr → List Tok → Option (SExpr × List Tok)
  | 0, _, _ => none
  | n + 1, acc, Tok.orT :: ts =>
    match parseAnd (n + 1) ts with
    | none => none
    | some (e, rest) => parseOrGo n (SExpr.sor acc e) rest
  | _ + 1, acc, ts => some (acc, ts)

/-- Parse a full WHERE condition; trailing tokens are a syntax error. -/
def parseWhere (s : String) : Option SExpr :=
  match tokenize s with
  | none => none
  | some ts =>
    match parseAnd (ts.length + 1) ts with
    | none => none
    | some (e, rest) =>
      match parseOrGo (rest.length + 1) e rest with
      | none => none
      | some (e2, []) => some e2
      | some (_, _ :: _) => none

/-- An SQLite storage value of the `orders` table. -/
inductive SQLVal where
  | vText : String → SQLVal
  | vInt : Int → SQLVal
  | vReal : ℚ → SQLVal
deriving Repr, DecidableEq

/-- Column resolution for the 16 `orders` columns of Load.py's schema. -/
def colValue (r : OrderRec) : String → Option SQLVal
  | "Region" => some (SQLVal.vText r.region)
  | "Country" => some (SQLVal.vText r.country)
  | "ItemType" => some (SQLVal.vText r.itemType)
  | "SalesChannel" => some (SQLVal.vText r.salesChannel)
  | "OrderPriority" => some (SQLVal.vText r.orderPriority)
  | "OrderDate" => some (SQLVal.vText r.orderDate)
  | "OrderID" => some (SQLVal.vInt r.orderID)
  | "ShipDate" => some (SQLVal.vText r.shipDate)
  | "UnitsSold" => some (SQLVal.vInt r.unitsSold)
  | "UnitPrice" => some (SQLVal.vReal r.unitPrice)
  | "UnitCost" => some (SQLVal.vReal r.unitCost)
  | "TotalRevenue" => some (SQLVal.vReal r.totalRevenue)
  | "TotalCost" => some (SQLVal.vReal r.totalCost)
  | "TotalProfit" => some (SQLVal.vReal r.totalProfit)
  | "OrderProcessingTime" => some (SQLVal.vInt r.orderProcessingTime)
  | "GrossMargin" => some (SQLVal.vReal r.grossMargin)
  | _ => none

def validColumns : List String :=
  ["Region", "Country", "ItemType", "SalesChannel", "OrderPriority", "OrderDate",
   "OrderID", "ShipDate", "UnitsSold", "UnitPrice", "UnitCost", "TotalRevenue",
   "TotalCost", "TotalProfit", "OrderProcessingTime", "GrossMargin"]

def evalTerm (r : OrderRec) : STerm → Option SQLVal
  | STerm.col c => colValue r c
  | STerm.lit s => some (SQLVal.vText s)

def evalExpr (r : OrderRec) : SExpr → Option Bool
  | SExpr.atom _ => none
  | SExpr.cmp a b =>
    match evalTerm r a, evalTerm r b with
    | some va, some vb => some (decide (va = vb))
    | _, _ => none
  | SExpr.sand a b =>
    match evalExpr r a, evalExpr r b with
    | some ba, some bb => some (ba && bb)
    | _, _ => none
  | SExpr.sor a b =>
    match evalExpr r a, evalExpr r b with
    | some ba, some bb => some (ba || bb)
    | _, _ => none

def filterRows (e : SExpr) : List OrderRec → Option (List OrderRec)
  | [] => some []
  | r :: rs =>
    match evalExpr r e, filterRows e rs with
    | some b, some rest => some (if b then r :: rest else rest)
    | _, _ => none

/-- The record set produced by the handler's filter query (Query.py lines
    59, 75-78, 86-88): all rows of the store when no filter contributed,
    otherwise the rows satisfying the assembled WHERE condition; `none`
    models an SQL error raised by the engine. -/
def matchingRecords (store : List OrderRec) (fs : List (String × String)) :
    Option (List OrderRec) :=
  match buildQueryFilters fs with
  | [] => some store
  | cs =>
    match parseWhere (joinSep " AND " cs) with
    | none => none
    | some e => filterRows e store

/-! ### The aggregation query (Query.py lines 45-58, 80-93) -/

/-- One row of the aggregation query's result set: the nine selected
    aggregates, in column order.  SQL semantics over an empty input: AVG,
    MAX, MIN and SUM are NULL, COUNT is 0. -/
structure AggRow where
  avgOrderProcessingTime : Option ℚ
  avgGrossMargin : Option ℚ
  avgUnitsSold : Option ℚ
  maxUnitsSold : Option Int
  minUnitsSold : Option Int
  totalUnitsSold : Option Int
  totalRevenue : Option ℚ
  totalProfit : Option ℚ
  numberOfOrders : Nat
deriving Repr, DecidableEq

def sumInt (l : List Int) : Int := l.foldr (· + ·) 0

def sumQ (l : List ℚ) : ℚ := l.foldr (· + ·) 0

def maxInt : List Int → Option Int
  | [] => none
  | x :: xs =>
    match maxInt xs with
    | none => some x
    | some m => some (max x m)

def minInt : List Int → Option Int
  | [] => none
  | x :: xs =>
    match minInt xs with
    | none => some x
    | some m => some (min x m)

/-- The nine aggregates of the handler's SELECT list over one group of rows
    (an average divides by the number of rows of that group). -/
def aggOf (rows : List OrderRec) : AggRow :=
  match rows with
  | [] =>
    { avgOrderProcessingTime := none, avgGrossMargin := none, avgUnitsSold := none,
      maxUnitsSold := none, minUnitsSold := none, totalUnitsSold := none,
      totalRevenue := none, totalProfit := none, numberOfOrders := 0 }
  | _ :: _ =>
    { avgOrderProcessingTime :=
        some (sumQ (rows.map (fun r => (r.orderProcessingTime : ℚ))) / rows.length)
      avgGrossMargin := some (sumQ (rows.map (·.grossMargin)) / rows.length)
      avgUnitsSold := some (sumQ (rows.map (fun r => (r.unitsSold : ℚ))) / rows.length)
      maxUnitsSold := maxInt (rows.map (·.unitsSold))
      minUnitsSold := minInt (rows.map (·.unitsSold))
      totalUnitsSold := some (sumInt (rows.map (·.unitsSold)))
      totalRevenue := some (sumQ (rows.map (·.totalRevenue)))
      totalProfit := some (sumQ (rows.map (·.totalProfit)))
      numberOfOrders := (rows.map (·.orderID)).dedup.length }

/-- The aggregation result over an empty group (all NULL, count 0). -/
def emptyAggRow : AggRow :=
  { avgOrderProcessingTime := none, avgGrossMargin := none, avgUnitsSold := none,
    maxUnitsSold := none, minUnitsSold := none, totalUnitsSold := none,
    totalRevenue := none, totalProfit := none, numberOfOrders := 0 }

/-- The GROUP BY key of a record: the values of the group-by columns. -/
def groupKeyOf (gb : List String) (r : OrderRec) : Option (List SQLVal) :=
  gb.mapM (colValue r)

/-- The distinct group keys in order of first appearance (for the concrete
    stores in this file this coincides with SQLite's ascending group order;
    no conclusion below depends on the order of groups). -/
def firstDedup : List (Option (List SQLVal)) → List (Option (List SQLVal)) →
    List (Option (List SQLVal))
  | [], _ => []
  | x :: xs, seen =>
    if x ∈ seen then firstDedup xs seen else x :: firstDedup xs (x :: seen)

/-- The result set of the aggregation query (Query.py lines 80-93): the
    filtered view of the store, grouped by the `Group By` columns when
    present (the group-by names are spliced verbatim into the SQL, so a
    name that is not a column of `orders` is an SQL error, modelled as
    `none`); one `AggRow` per group, one single row when no GROUP BY. -/
def execAggQuery (store : List OrderRec) (fs : List (String × String))
    (gb : List String) : Option (List AggRow) :=
  match matchingRecords store fs with
  | none => none
  | some filtered =>
    if gb = [] then some [aggOf filtered]
    else if gb.all (fun g => decide (g ∈ validColumns)) then
      some ((firstDedup (filtered.map (groupKeyOf gb)) []).map (fun k =>
        aggOf (filtered.filter (fun r => decide (groupKeyOf gb r = k)))))
    else none

/-- The handler's response as far as the core logic determines it: the
    status code, the `aggregations` payload (Query.py lines 99-111: the
    dictionary is filled from `agg_result[0]` when `agg_result` is nonempty
    — a fetched row is a nonempty tuple, hence always truthy — and stays
    empty otherwise, modelled as `none`), and the record list included in
    the response, which the source never adds (`filter_result` is fetched
    at line 88 and dropped; the response of lines 118-121 carries only
    `statusCode` and `aggregations`), modelled as `none`. -/
structure QueryResponse where
  statusCode : Nat
  aggregations : Option AggRow
  records : Option (List OrderRec)
deriving Repr, DecidableEq

/-- The core of `lambda_handler` (Query.py lines 36-136), abstracted over
    the downloaded store: build and run the two queries; any SQL error is
    caught by the handler's `except` block and produces a 500 error
    response. -/
def lambdaHandlerCore (store : List OrderRec) (fs : List (String × String))
    (gb : List String) : QueryResponse :=
  match matchingRecords store fs, execAggQuery store fs gb with
  | some _, some aggRows =>
    { statusCode := 200, aggregations := aggRows.head?, records := none }
  | _, _ => { statusCode := 500, aggregations := none, records := none }

/-! ### Sample stores and the concrete query inputs used below -/

def recAsia : OrderRec :=
  { region := "Asia", country := "Japan", itemType := "Snacks",
    salesChannel := "Offline", orderPriority := "Low", orderDate := "1/1/2020",
    orderID := 2, shipDate := "1/3/2020", unitsSold := 1, unitPrice := 5,
    unitCost := 4, totalRevenue := 5, totalCost := 4, totalProfit := 1,
    orderProcessingTime := 2, grossMargin := 1/5 }

def recEurope : OrderRec :=
  { region := "Europe", country := "France", itemType := "Fruit",
    salesChannel := "Online", orderPriority := "High", orderDate := "1/1/2020",
    orderID := 1, shipDate := "1/5/2020", unitsSold := 3, unitPrice := 2,
    unitCost := 1, totalRevenue := 6, totalCost := 3, totalProfit := 3,
    orderProcessingTime := 4, grossMargin := 1/2 }

def sampleStore : List OrderRec := [recAsia, recEurope]

/-- The classic injection filter value of the spec: `A' OR '1'='1`. -/
def injValue : String :=
  "A" ++ squote ++ " OR " ++ squote ++ "1" ++ squote ++ "=" ++ squote ++ "1"

/-! ### Claims about the QueryEngine (Query.py) -/

/-- C1 (refuted on the code): the handler interpolates each filter value
verbatim into the query text (the f-strings of Query.py lines 63-72), so a
value containing quote characters changes the logical shape of the query:
with `Filters: Region ↦ A' OR '1'='1'`, the generated conjunct is the text
`Region = 'A' OR '1'='1'`, which parses as a disjunction whose right arm is
the tautology `'1'='1'`, and the query matches a stored record whose Region
is `Europe` — not the empty set that literal-equality treatment of the
value requires. -/
theorem query_filter_value_interpolated :
    buildQueryFilters [("Region", injValue)] =
      ["Region = " ++ squote ++ "A" ++ squote ++ " OR " ++ squote ++ "1"
        ++ squote ++ "=" ++ squote ++ "1" ++ squote] ∧
    parseWhere (joinSep " AND " (buildQueryFilters [("Region", injValue)])) =
      some (SExpr.sor (SExpr.cmp (STerm.col "Region") (STerm.lit "A"))
        (SExpr.cmp (STerm.lit "1") (STerm.lit "1"))) ∧
    matchingRecords [recEurope] [("Region", injValue)] = some [recEurope] ∧
    recEurope.region ≠ injValue :=
  ⟨rfl, rfl, rfl, by decide⟩

/-- C2 (refuted on the code): a filter key outside the recognized set is
silently ignored — it contributes no clause and no error, every stored
record matches, and the invocation succeeds with status 200 — and a
group-by field outside the allow-list (`UnitsSold` is a column of `orders`
but not an allow-listed field) is likewise accepted, not rejected. -/
theorem query_unknown_field_not_rejected :
    buildQueryFilters [("Discount", "10%")] = [] ∧
    matchingRecords [recEurope] [("Discount", "10%")] = some [recEurope] ∧
    (lambdaHandlerCore [recEurope] [("Discount", "10%")] []).statusCode = 200 ∧
    (lambdaHandlerCore [recEurope] [] ["UnitsSold"]).statusCode = 200 :=
  ⟨rfl, rfl, rfl, rfl⟩

/-- C3 (refuted on the code): with `Group By = [Region]` over a store with
an Asia group and a Europe group, the aggregation query yields one result
row per group, but the handler builds its response from `agg_result[0]`
alone: the aggregations payload is exactly the Asia row, a single group's
statistics (the two groups' statistics differ, e.g. Total Units Sold 1
versus 3). -/
theorem query_groupby_only_first_group :
    execAggQuery sampleStore [] ["Region"] =
      some [aggOf [recAsia], aggOf [recEurope]] ∧
    (lambdaHandlerCore sampleStore [] ["Region"]).statusCode = 200 ∧
    (lambdaHandlerCore sampleStore [] ["Region"]).aggregations =
      some (aggOf [recAsia]) ∧
    (aggOf [recAsia]).totalUnitsSold = some 1 ∧
    (aggOf [recEurope]).totalUnitsSold = some 3 :=
  ⟨rfl, rfl, rfl, rfl, rfl⟩

lemma execAggQuery_empty {store : List OrderRec} {fs : List (String × String)}
    {gb : List String} (hm : matchingRecords store fs = some [])
    (hgb : ∀ g ∈ gb, g ∈ validColumns) :
    execAggQuery store fs gb = some (if gb = [] then [emptyAggRow] else []) := by
  unfold execAggQuery
  rw [hm]
  by_cases h0 : gb = []
  · simp [h0]
    rfl
  · have hall : gb.all (fun g => decide (g ∈ validColumns)) = true := by
      rw [List.all_eq_true]
      intro g hg
      exact decide_eq_true (hgb g hg)
    simp [h0, hall, firstDedup]

/-- C8 counterexample: on the empty store the invocation succeeds, but the
response includes no record list at all (the handler fetches
`filter_result` and never adds it to the response), and the aggregations
payload is present with Number of Orders 0 — a defined value, not an
absent statistic. -/
theorem query_empty_result_claim_gap :
    (lambdaHandlerCore [] [] []).records ≠ some [] ∧
    (lambdaHandlerCore [] [] []).records = none ∧
    (lambdaHandlerCore [] [] []).aggregations = some emptyAggRow ∧
    emptyAggRow.numberOfOrders = 0 :=
  ⟨by decide, rfl, rfl, rfl⟩

/-- C8 (amended): a query whose filtered set is empty — the empty store
included — is not an error: the invocation returns status 200 and never
hits a division fault; with no group-by the aggregations payload is present
with every averaged/summed statistic null and Number of Orders 0, and with
a (column-valid) group-by the aggregations payload is empty; the response
carries no record list (the fetched record set is never included). -/
theorem query_empty_result_no_fault {store : List OrderRec}
    {fs : List (String × String)} {gb : List String}
    (hm : matchingRecords store fs = some [])
    (hgb : ∀ g ∈ gb, g ∈ validColumns) :
    (lambdaHandlerCore store fs gb).statusCode = 200 ∧
    (gb = [] → (lambdaHandlerCore store fs gb).aggregations = some emptyAggRow) ∧
    (gb ≠ [] → (lambdaHandlerCore store fs gb).aggregations = none) ∧
    (lambdaHandlerCore store fs gb).records = none := by
  have hagg := execAggQuery_empty hm hgb
  refine ⟨?_, ?_, ?_, ?_⟩
  · simp [lambdaHandlerCore, hm, hagg]
  · intro h0
    subst h0
    simp [lambdaHandlerCore, hm, hagg]
  · intro h0; simp [lambdaHandlerCore, hm, hagg, h0]
  · simp [lambdaHandlerCore, hm, hagg]

/-- Witness for the amended C8 at the empty store with no filters and no
group-by. -/
theorem query_empty_result_no_fault_witness :
    (lambdaHandlerCore [] [] []).statusCode = 200 ∧
    (([] : List String) = [] →
      (lambdaHandlerCore [] [] []).aggregations = some emptyAggRow) ∧
    (([] : List String) ≠ [] →
      (lambdaHandlerCore [] [] []).aggregations = none) ∧
    (lambdaHandlerCore [] [] []).records = none :=
  query_empty_result_no_fault (show matchingRecords [] [] = some [] from rfl)
    (by simp)

/-! ### Empty-string filter values (C10) -/

/-- `fs` with every binding of key `k` removed. -/
def eraseKey (k : String) (fs : List (String × String)) : List (String × String) :=
  fs.filter (fun p => p.1 != k)

lemma lookup_eraseKey (k k2 : String) (fs : List (String × String)) :
    (eraseKey k fs).lookup k2 = if k2 = k then none else fs.lookup k2 := by
  induction fs with
  | nil => by_cases h : k2 = k <;> simp [eraseKey, h]
  | cons a rest ih =>
    obtain ⟨ka, va⟩ := a
    by_cases hak : ka = k
    · have hfil : eraseKey k ((ka, va) :: rest) = eraseKey k rest := by
        simp [eraseKey, List.filter, hak]
      rw [hfil, ih]
      by_cases h2 : k2 = k
      · simp [h2]
      · have hne : (k2 == ka) = false := by
          rw [hak]
          simp [h2]
        simp [h2, List.lookup, hne]
    · have hb : (ka != k) = true := by simp [hak]
      have hfil : eraseKey k ((ka, va) :: rest) = (ka, va) :: eraseKey k rest := by
        simp [eraseKey, List.filter, hb]
      rw [hfil]
      by_cases h2 : k2 = ka
      · subst h2
        simp [List.lookup, hak]
      · have hne : (k2 == ka) = false := by simp [h2]
        simp [List.lookup, hne, ih]

lemma filterClause_eraseKey_other {fs : List (String × String)}
    {k key col : String} (hne : key ≠ k) :
    filterClause (eraseKey k fs) key col = filterClause fs key col := by
  unfold filterClause
  rw [lookup_eraseKey, if_neg hne]

lemma filterClause_self_empty_val {fs : List (String × String)} {k col : String}
    (hv : fs.lookup k = some "") :
    filterClause fs k col = [] := by
  unfold filterClause
  rw [hv]
  simp

lemma filterClause_eraseKey_self {fs : List (String × String)} {k col : String} :
    filterClause (eraseKey k fs) k col = [] := by
  unfold filterClause
  rw [lookup_eraseKey, if_pos rfl]

/-- C10: an allow-listed filter key bound to the empty string behaves
exactly as if the key were absent: Python's truthiness test on
`filters.get(key)` skips the empty string, so the same clause list is built
(no equality predicate on that field) and the matching record set equals
the one for the request with the key removed, for every store — hence no
request can select only the records whose field equals the empty string. -/
theorem query_empty_value_filter_skipped {store : List OrderRec}
    {fs : List (String × String)} {k : String}
    (hk : k ∈ (["Region", "Item Type", "Sales Channel", "Order Priority",
      "Country"] : List String))
    (hv : fs.lookup k = some "") :
    buildQueryFilters fs = buildQueryFilters (eraseKey k fs) ∧
    matchingRecords store fs = matchingRecords store (eraseKey k fs) := by
  have hbf : buildQueryFilters fs = buildQueryFilters (eraseKey k fs) := by
    simp only [List.mem_cons, List.not_mem_nil, or_false] at hk
    rcases hk with rfl | rfl | rfl | rfl | rfl
    · unfold buildQueryFilters
      rw [filterClause_self_empty_val hv, filterClause_eraseKey_self,
        filterClause_eraseKey_other (show ("Item Type" : String) ≠ "Region" by decide),
        filterClause_eraseKey_other (show ("Sales Channel" : String) ≠ "Region" by decide),
        filterClause_eraseKey_other (show ("Order Priority" : String) ≠ "Region" by decide),
        filterClause_eraseKey_other (show ("Country" : String) ≠ "Region" by decide)]
    · unfold buildQueryFilters
      rw [filterClause_self_empty_val hv, filterClause_eraseKey_self,
        filterClause_eraseKey_other (show ("Region" : String) ≠ "Item Type" by decide),
        filterClause_eraseKey_other (show ("Sales Channel" : String) ≠ "Item Type" by decide),
        filterClause_eraseKey_other (show ("Order Priority" : String) ≠ "Item Type" by decide),
        filterClause_eraseKey_other (show ("Country" : String) ≠ "Item Type" by decide)]
    · unfold buildQueryFilters
      rw [filterClause_self_empty_val hv, filterClause_eraseKey_self,
        filterClause_eraseKey_other (show ("Region" : String) ≠ "Sales Channel" by decide),
        filterClause_eraseKey_other (show ("Item Type" : String) ≠ "Sales Channel" by decide),
        filterClause_eraseKey_other (show ("Order Priority" : String) ≠ "Sales Channel" by decide),
        filterClause_eraseKey_other (show ("Country" : String) ≠ "Sales Channel" by decide)]
    · unfold buildQueryFilters
      rw [filterClause_self_empty_val hv, filterClause_eraseKey_self,
        filterClause_eraseKey_other (show ("Region" : String) ≠ "Order Priority" by decide),
        filterClause_eraseKey_other (show ("Item Type" : String) ≠ "Order Priority" by decide),
        filterClause_eraseKey_other (show ("Sales Channel" : String) ≠ "Order Priority" by decide),
        filterClause_eraseKey_other (show ("Country" : String) ≠ "Order Priority" by decide)]
    · unfold buildQueryFilters
      rw [filterClause_self_empty_val hv, filterClause_eraseKey_self,
        filterClause_eraseKey_other (show ("Region" : String) ≠ "Country" by decide),
        filterClause_eraseKey_other (show ("Item Type" : String) ≠ "Country" by decide),
        filterClause_eraseKey_other (show ("Sales Channel" : String) ≠ "Country" by decide),
        filterClause_eraseKey_other (show ("Order Priority" : String) ≠ "Country" by decide)]
  refine ⟨hbf, ?_⟩
  unfold matchingRecords
  rw [hbf]

/-- Witness for C10: a request whose Filters bind Region to the empty
string matches every record of a one-record store whose Region is
nonempty. -/
theorem query_empty_value_filter_skipped_witness :
    (buildQueryFilters [("Region", "")] =
      buildQueryFilters (eraseKey "Region" [("Region", "")]) ∧
     matchingRecords [recEurope] [("Region", "")] =
      matchingRecords [recEurope] (eraseKey "Region" [("Region", "")])) ∧
    matchingRecords [recEurope] [("Region", "")] = some [recEurope] ∧
    recEurope.region ≠ "" :=
  ⟨query_empty_value_filter_skipped (by decide) rfl, rfl, by decide⟩

end TLQ
